import Mathlib

/-!
Verification development for the EarthStudio camera-animation application.

The JavaScript source is shallowly embedded: JS numbers are modelled as
exact rationals (ℚ), JS arrays as `List`, fallible/optional values as
`Option`, and the stateful controllers as explicit state-passing step
functions.  Every definition is translated from the source file named in
its doc comment.
-/

namespace EarthStudio

/-- JS truncation toward zero, as performed by the `%` operator's quotient. -/
def jsTrunc (q : ℚ) : ℤ := if 0 ≤ q then ⌊q⌋ else ⌈q⌉

/-- The JS `%` operator on numbers (truncated remainder `a - b * trunc (a/b)`). -/
def jsFmod (a b : ℚ) : ℚ := a - b * (jsTrunc (a / b) : ℚ)

/-- The interpolation-type selector carried by a keyframe.  In the source it is
a string key into the `Interpolation` object (`src/js/interpolation.js`);
`interpolate` falls back to `linear` for unknown keys, so the five named
easings cover all distinguishable behaviours. -/
inductive EasingType where
  | linear
  | easeIn
  | easeOut
  | easeInOut
  | bezier
deriving DecidableEq, Repr

/-- `linear(t)` from src/js/interpolation.js line 4. -/
def linearEase (t : ℚ) : ℚ := t

/-- `easeIn(t) = t*t*t` from src/js/interpolation.js line 9. -/
def easeIn (t : ℚ) : ℚ := t * t * t

/-- `easeOut(t) = 1 - (1-t)^3` from src/js/interpolation.js line 14. -/
def easeOut (t : ℚ) : ℚ := 1 - (1 - t) ^ 3

/-- `easeInOut(t)` from src/js/interpolation.js line 19. -/
def easeInOut (t : ℚ) : ℚ :=
  if t < 1 / 2 then 4 * t * t * t else 1 - (-2 * t + 2) ^ 3 / 2

/-- The Newton-Raphson loop of `bezier` (src/js/interpolation.js lines 40-47),
with explicit fuel for the `for (let i = 0; i < 8; i++)` bound.  The first
argument triple is `(ax, bx, cx)`, then the target x-value `t`, the fuel, and
the running parameter `t2`. -/
def newtonIter (ax bx cx t : ℚ) : ℕ → ℚ → ℚ
  | 0, t2 => t2
  | n + 1, t2 =>
    let x := ((ax * t2 + bx) * t2 + cx) * t2 - t
    if |x| < 1 / 1000 then t2
    else
      let d := (3 * ax * t2 + 2 * bx) * t2 + cx
      if |d| < 1 / 1000000 then t2
      else newtonIter ax bx cx t n (t2 - x / d)

/-- `bezier(t, p1, p2, p3, p4)` from src/js/interpolation.js lines 26-50:
solve the cubic Bézier's x-polynomial for the parameter matching `t`, then
evaluate the y-polynomial there.  (JS double literals `0.001`, `0.000001`
are modelled as the exact rationals they denote.) -/
def bezier (t p1 p2 p3 p4 : ℚ) : ℚ :=
  let cx := 3 * p1
  let bx := 3 * (p3 - p1) - cx
  let ax := 1 - cx - bx
  let cy := 3 * p2
  let byc := 3 * (p4 - p2) - cy
  let ay := 1 - cy - byc
  let t2 := newtonIter ax bx cx t 8 t
  ((ay * t2 + byc) * t2 + cy) * t2

/-- Dispatch `this[type](t)` (src/js/interpolation.js line 54): when called
through `interpolate`, `bezier` receives its default control points
`(0.42, 0, 0.58, 1)`. -/
def applyEasing : EasingType → ℚ → ℚ
  | .linear, t => linearEase t
  | .easeIn, t => easeIn t
  | .easeOut, t => easeOut t
  | .easeInOut, t => easeInOut t
  | .bezier, t => bezier t (42 / 100) 0 (58 / 100) 1

/-- `interpolate(a, b, t, type)` from src/js/interpolation.js lines 53-56. -/
def interpolate (a b t : ℚ) (ty : EasingType) : ℚ :=
  let easedT := applyEasing ty t
  a + (b - a) * easedT

/-- The first `while` loop of `normalizeAngle` (src/js/interpolation.js
line 74): `while (angle > 180) angle -= 360`. -/
def normLoop1 (a : ℚ) : ℚ :=
  if 180 < a then normLoop1 (a - 360) else a
termination_by (⌈a⌉).toNat
decreasing_by
  have h1 : (180 : ℤ) < ⌈a⌉ := by
    rw [Int.lt_ceil]; exact_mod_cast ‹(180 : ℚ) < a›
  have h2 : ⌈a - 360⌉ = ⌈a⌉ - 360 := by
    rw [show (360 : ℚ) = ((360 : ℤ) : ℚ) by norm_num, Int.ceil_sub_int]
  omega

/-- The second `while` loop of `normalizeAngle` (src/js/interpolation.js
line 75): `while (angle < -180) angle += 360`. -/
def normLoop2 (a : ℚ) : ℚ :=
  if a < -180 then normLoop2 (a + 360) else a
termination_by (-⌊a⌋).toNat
decreasing_by
  have h1 : ⌊a⌋ < -180 := by
    rw [Int.floor_lt]; push_cast; exact ‹a < -180›
  have h2 : ⌊a + 360⌋ = ⌊a⌋ + 360 := by
    rw [show (360 : ℚ) = ((360 : ℤ) : ℚ) by norm_num, Int.floor_add_int]
  omega

/-- `normalizeAngle(angle)` from src/js/interpolation.js lines 73-77:
the two `while` loops run in sequence. -/
def normalizeAngle (angle : ℚ) : ℚ := normLoop2 (normLoop1 angle)

/-- `interpolateAngle(start, end, t, type)` from src/js/interpolation.js
lines 69-88: normalize both angles, take the wrapped shortest delta, apply
the eased parameter, and re-normalize. -/
def interpolateAngle (start endv t : ℚ) (ty : EasingType) : ℚ :=
  let easedT := applyEasing ty t
  let s := normalizeAngle start
  let e := normalizeAngle endv
  let diff0 := e - s
  let diff1 := if 180 < diff0 then diff0 - 360 else diff0
  let diff2 := if diff1 < -180 then diff1 + 360 else diff1
  normalizeAngle (s + diff2 * easedT)

/-- A camera pose as produced by `interpolateAt` (src/js/app.js lines 560-594):
the seven numeric camera fields. -/
structure Pose where
  latitude : ℚ
  longitude : ℚ
  height : ℚ
  heading : ℚ
  pitch : ℚ
  roll : ℚ
  fov : ℚ
deriving DecidableEq, Repr

/-- The `cameraData` argument of the `Keyframe` constructor.  `fov` is an
`Option` because the source reads `cameraData.fov || 60`, which must
distinguish an absent (`undefined`) field from a present one. -/
structure CameraData where
  latitude : ℚ
  longitude : ℚ
  height : ℚ
  heading : ℚ
  pitch : ℚ
  roll : ℚ
  fov : Option ℚ
deriving DecidableEq, Repr

/-- A stored keyframe (src/js/app.js lines 407-418). -/
structure Keyframe where
  time : ℚ
  latitude : ℚ
  longitude : ℚ
  height : ℚ
  heading : ℚ
  pitch : ℚ
  roll : ℚ
  fov : ℚ
  interpolationType : EasingType
deriving DecidableEq, Repr

instance : Inhabited Keyframe :=
  ⟨{ time := 0, latitude := 0, longitude := 0, height := 0, heading := 0,
     pitch := 0, roll := 0, fov := 0, interpolationType := .linear }⟩

/-- The `Keyframe` constructor (src/js/app.js lines 408-418).  The field
assignment `this.fov = cameraData.fov || 60` yields `60` both when `fov` is
absent and when it is the falsy number `0` (NaN does not arise over ℚ). -/
def keyframeMk (time : ℚ) (cd : CameraData) (ty : EasingType := .easeInOut) :
    Keyframe :=
  { time := time
    latitude := cd.latitude
    longitude := cd.longitude
    height := cd.height
    heading := cd.heading
    pitch := cd.pitch
    roll := cd.roll
    fov := match cd.fov with
      | none => 60
      | some v => if v = 0 then 60 else v
    interpolationType := ty }

/-- The keyframe record of the project document
(`KeyframeJSON` in the spec's §6). -/
structure KeyframeJSON where
  time : ℚ
  latitude : ℚ
  longitude : ℚ
  height : ℚ
  heading : ℚ
  pitch : ℚ
  roll : ℚ
  fov : ℚ
  interpolationType : EasingType
deriving DecidableEq, Repr

/-- `Keyframe.prototype.toJSON` (src/js/app.js lines 432-444). -/
def Keyframe.toJSON (kf : Keyframe) : KeyframeJSON :=
  { time := kf.time
    latitude := kf.latitude
    longitude := kf.longitude
    height := kf.height
    heading := kf.heading
    pitch := kf.pitch
    roll := kf.roll
    fov := kf.fov
    interpolationType := kf.interpolationType }

/-- `Keyframe.fromJSON` (src/js/app.js lines 446-456): feeds the document
fields back through the constructor (so `fov = 0` is coerced to `60`). -/
def Keyframe.fromJSON (d : KeyframeJSON) : Keyframe :=
  keyframeMk d.time
    { latitude := d.latitude
      longitude := d.longitude
      height := d.height
      heading := d.heading
      pitch := d.pitch
      roll := d.roll
      fov := some d.fov }
    d.interpolationType

/-- The camera fields of a stored keyframe, as returned verbatim by
`interpolateAt`'s clamp branches (`before.toJSON()` restricted to the
fields the renderer consumes). -/
def Keyframe.pose (kf : Keyframe) : Pose :=
  { latitude := kf.latitude
    longitude := kf.longitude
    height := kf.height
    heading := kf.heading
    pitch := kf.pitch
    roll := kf.roll
    fov := kf.fov }

/-- The comparator of `sortKeyframes` (src/js/app.js line 532):
`(a, b) => a.time - b.time` orders ascending by time. -/
def timeLE (a b : Keyframe) : Bool := decide (a.time ≤ b.time)

/-- `KeyframeManager.sortKeyframes` (src/js/app.js lines 531-533).
`Array.prototype.sort` is required to be stable; `List.mergeSort` is the
stable sort matching it. -/
def sortKeyframes (ks : List Keyframe) : List Keyframe := ks.mergeSort timeLE

/-- `KeyframeManager.addKeyframe` (src/js/app.js lines 487-493): push then
sort.  The manager's keyframe array is the explicit state. -/
def addKeyframe (ks : List Keyframe) (kf : Keyframe) : List Keyframe :=
  sortKeyframes (ks ++ [kf])

/-- `KeyframeManager.removeKeyframe` (src/js/app.js lines 496-509): splice
out the element (located by reference; here by index). -/
def removeKeyframe (ks : List Keyframe) (i : ℕ) : List Keyframe :=
  ks.eraseIdx i

/-- The `newData` argument of `updateKeyframe`: any subset of fields may be
present, matching `Object.assign`'s field-wise overwrite. -/
structure KeyframeUpdate where
  time : Option ℚ := none
  latitude : Option ℚ := none
  longitude : Option ℚ := none
  height : Option ℚ := none
  heading : Option ℚ := none
  pitch : Option ℚ := none
  roll : Option ℚ := none
  fov : Option ℚ := none
  interpolationType : Option EasingType := none
deriving DecidableEq, Repr

/-- `Object.assign(keyframe, newData)` (src/js/app.js line 513): present
fields overwrite, absent fields keep the stored value.  Note this bypasses
the constructor's `fov || 60` coercion. -/
def applyUpdate (kf : Keyframe) (u : KeyframeUpdate) : Keyframe :=
  { time := u.time.getD kf.time
    latitude := u.latitude.getD kf.latitude
    longitude := u.longitude.getD kf.longitude
    height := u.height.getD kf.height
    heading := u.heading.getD kf.heading
    pitch := u.pitch.getD kf.pitch
    roll := u.roll.getD kf.roll
    fov := u.fov.getD kf.fov
    interpolationType := u.interpolationType.getD kf.interpolationType }

/-- `KeyframeManager.updateKeyframe` (src/js/app.js lines 512-517):
in-place `Object.assign` followed by re-sort. -/
def updateKeyframe (ks : List Keyframe) (i : ℕ) (u : KeyframeUpdate) :
    List Keyframe :=
  sortKeyframes (ks.set i (applyUpdate (ks.getD i default) u))

/-- The loop of `getSurroundingKeyframes` (src/js/app.js lines 542-550),
carrying the running index and the `before` accumulator; the loop `break`s
as soon as `after` is assigned.  Indices model JS object references, so
`before === after` is index equality. -/
def gskAux (t : ℚ) : List Keyframe → ℕ → Option ℕ → Option ℕ × Option ℕ
  | [], _, before => (before, none)
  | kf :: rest, i, before =>
    let nextBefore := if kf.time ≤ t then some i else before
    if t ≤ kf.time then (nextBefore, some i)
    else gskAux t rest (i + 1) nextBefore

/-- `KeyframeManager.getSurroundingKeyframes` (src/js/app.js lines 536-553). -/
def getSurroundingKeyframes (ks : List Keyframe) (t : ℚ) :
    Option ℕ × Option ℕ :=
  if ks.length = 0 then (none, none) else gskAux t ks 0 none

/-- The default pose returned when the timeline is empty
(src/js/app.js lines 560-569). -/
def defaultPose : Pose :=
  { latitude := 35.6762
    longitude := 139.6503
    height := 10000
    heading := 0
    pitch := -45
    roll := 0
    fov := 60 }

/-- The two-keyframe interpolation branch of `interpolateAt`
(src/js/app.js lines 577-594), including the `duration > 0 ? ... : 0`
divide-by-zero guard. -/
def interpSegment (bk ak : Keyframe) (time : ℚ) : Pose :=
  let segDuration := ak.time - bk.time
  let elapsed := time - bk.time
  let t := if 0 < segDuration then elapsed / segDuration else 0
  let ty := bk.interpolationType
  { latitude := interpolate bk.latitude ak.latitude t ty
    longitude := interpolate bk.longitude ak.longitude t ty
    height := interpolate bk.height ak.height t ty
    heading := interpolateAngle bk.heading ak.heading t ty
    pitch := interpolateAngle bk.pitch ak.pitch t ty
    roll := interpolateAngle bk.roll ak.roll t ty
    fov := interpolate bk.fov ak.fov t ty }

/-- `KeyframeManager.interpolateAt` (src/js/app.js lines 556-595). -/
def interpolateAt (ks : List Keyframe) (time : ℚ) : Pose :=
  match getSurroundingKeyframes ks time with
  | (none, none) => defaultPose
  | (none, some j) => (ks.getD j default).pose
  | (some i, none) => (ks.getD i default).pose
  | (some i, some j) =>
    if i = j then (ks.getD i default).pose
    else interpSegment (ks.getD i default) (ks.getD j default) time

/-- The project document shape produced by `exportToJSON`. -/
structure TimelineJSON where
  version : String
  keyframes : List KeyframeJSON
deriving DecidableEq, Repr

/-- `KeyframeManager.exportToJSON` (src/js/app.js lines 610-615). -/
def exportToJSON (ks : List Keyframe) : TimelineJSON :=
  { version := "1.0", keyframes := ks.map Keyframe.toJSON }

/-- `KeyframeManager.importFromJSON` (src/js/app.js lines 618-625):
`clear()` then `addKeyframe(Keyframe.fromJSON(kfData))` per document entry. -/
def importFromJSON (d : TimelineJSON) : List Keyframe :=
  d.keyframes.foldl (fun acc kd => addKeyframe acc (Keyframe.fromJSON kd)) []

/-- The Timeline's sortedness invariant: keyframes ascending by `time`. -/
def KfSorted (ks : List Keyframe) : Prop :=
  List.Pairwise (fun a b : Keyframe => a.time ≤ b.time) ks

instance (ks : List Keyframe) : Decidable (KfSorted ks) := by
  unfold KfSorted; infer_instance

/-! ### Playback Clock (src/js/animation-controller.js) -/

/-- The `AnimationController`'s numeric/flag state
(src/js/animation-controller.js lines 8-15).  Times are in seconds except
`frameInterval` and `lastFrameTime`, which are in milliseconds as in the
source (`performance.now()` clock). -/
structure ClockState where
  isPlaying : Bool
  currentTime : ℚ
  duration : ℚ
  fps : ℚ
  frameInterval : ℚ
  lastFrameTime : ℚ
  loop : Bool
deriving DecidableEq, Repr

/-- The events emitted by the controller that the claims mention.  `pauseEv`
is the `pause` event emitted from inside `pause()`. -/
inductive ClockEvent where
  | pauseEv (time : ℚ)
  | timeUpdate (time : ℚ)
  | frameUpdate (time : ℚ) (frame : ℤ)
  | finished
deriving DecidableEq, Repr

/-- `getCurrentFrame` (src/js/animation-controller.js line 163):
`Math.floor(currentTime * fps)`. -/
def getCurrentFrame (s : ClockState) : ℤ := ⌊s.currentTime * s.fps⌋

/-- One invocation of `animate()` (src/js/animation-controller.js
lines 77-113) at wall-clock instant `now`, returning the new state, the
emitted events in order, and whether another animation frame is scheduled.
Branches, in source order: early return when not playing; the
`elapsed >= frameInterval` gate; drift-corrected `lastFrameTime`; the
end-of-duration check with the loop wrap / clamp-pause-finish split. -/
def animate (s : ClockState) (now : ℚ) : ClockState × List ClockEvent × Bool :=
  if s.isPlaying = false then (s, [], false)
  else
    let elapsed := now - s.lastFrameTime
    if s.frameInterval ≤ elapsed then
      let s1 := { s with lastFrameTime := now - jsFmod elapsed s.frameInterval }
      let t := s1.currentTime + s1.frameInterval / 1000
      if s1.duration ≤ t then
        if s1.loop then
          let s2 := { s1 with currentTime := 0 }
          (s2, [.timeUpdate 0, .frameUpdate 0 (getCurrentFrame s2)], true)
        else
          let s2 := { s1 with currentTime := s1.duration, isPlaying := false }
          (s2, [.pauseEv s2.currentTime, .timeUpdate s2.currentTime,
                .finished], false)
      else
        let s2 := { s1 with currentTime := t }
        (s2, [.timeUpdate t, .frameUpdate t (getCurrentFrame s2)], true)
    else (s, [], true)

/-- Iterate `animate` over a list of tick instants, concatenating the
emitted events (the `requestAnimationFrame` driver). -/
def runTicks : ClockState → List ℚ → ClockState × List ClockEvent
  | s, [] => (s, [])
  | s, now :: rest =>
    let r := animate s now
    let rr := runTicks r.1 rest
    (rr.1, r.2.1 ++ rr.2)

/-! ### Export Pipeline, Mode A (src/unnamed/part_000, `VideoExporter`) -/

/-- `totalFrames = Math.ceil(duration * fps)` (src/unnamed/part_000
line 79). -/
def totalFramesFor (duration fps : ℚ) : ℕ := (⌈duration * fps⌉).toNat

/-- The observable actions of one `startExport` run that the claims
mention. -/
inductive ExportEvent where
  | setCamera (pose : Pose)
  | setFOV (fov : ℚ)
  | waitRender
  | capture
  | upload (frameIndex : ℕ)
  | progress (pct : ℚ)
deriving DecidableEq, Repr

/-- One iteration of the capture-and-upload loop (src/unnamed/part_000
lines 116-159) on the happy path: sample the timeline at `frame / fps`,
push pose and fov to the renderer, wait for the render, capture, upload
tagged with the frame index, report `(frame+1)/totalFrames * 80` percent. -/
def frameBlock (ks : List Keyframe) (fps : ℚ) (totalFrames : ℕ) (frame : ℕ) :
    List ExportEvent :=
  let time := (frame : ℚ) / fps
  let cameraData := interpolateAt ks time
  [ .setCamera cameraData
  , .setFOV cameraData.fov
  , .waitRender
  , .capture
  , .upload frame
  , .progress (((frame : ℚ) + 1) / (totalFrames : ℚ) * 80) ]

/-- The full event trace of the Mode A frame loop when no failure or
cancellation occurs (src/unnamed/part_000 lines 116-159). -/
def exportTrace (ks : List Keyframe) (duration fps : ℚ) : List ExportEvent :=
  (List.range (totalFramesFor duration fps)).flatMap
    (frameBlock ks fps (totalFramesFor duration fps))

/-- The uploaded frame indices of a trace, in order. -/
def uploadIndices (tr : List ExportEvent) : List ℕ :=
  tr.filterMap fun e => match e with
    | .upload i => some i
    | _ => none

/-- The pose of the most recent `setCamera` event in a trace, if any. -/
def lastCamera (tr : List ExportEvent) : Option Pose :=
  tr.foldl (fun acc e => match e with
    | ExportEvent.setCamera p => some p
    | _ => acc) none

/-- How one `startExport` run terminates: success, a failed session-start
request, the cancellation flag observed at the top of an iteration, a
failed capture or upload at some frame, or a failed finish/encode
request. -/
inductive ModeAOutcome where
  | success
  | startFail
  | canceledAt (frame : ℕ)
  | captureFailAt (frame : ℕ)
  | uploadFailAt (frame : ℕ)
  | finishFail
deriving DecidableEq, Repr

/-- The `Error` message thrown on each failure path (src/unnamed/part_000
lines 95, 118, 136, 150, 183). -/
def outcomeErrMsg : ModeAOutcome → String
  | .success => ""
  | .startFail => "サーバー接続エラー"
  | .canceledAt _ => "エクスポートがキャンセルされました"
  | .captureFailAt _ => "Frame capture failed"
  | .uploadFailAt f => "Upload failed at frame " ++ toString f
  | .finishFail => "エンコードエラー"

/-- The externally observable state after `startExport` returns: the render
container's style dimensions, the clock's play flag, the last progress
report, and the exporting flag. -/
structure ExportFinal where
  width : String
  height : String
  isPlaying : Bool
  progressPct : ℚ
  statusMsg : String
  isExporting : Bool
deriving DecidableEq, Repr

/-- The `catch` block of `startExport` (src/unnamed/part_000 lines
209-227): report 0% with `'エラー: ' + error.message`, clear the exporting
flag, and set the container style to `'100%'` × `'100%'` — not the saved
originals.  The clock is not touched, so its play flag keeps whatever
value it had when the error was thrown. -/
def catchFinal (playingAtThrow : Bool) (msg : String) : ExportFinal :=
  { width := "100%"
    height := "100%"
    isPlaying := playingAtThrow
    progressPct := 0
    statusMsg := "エラー: " ++ msg
    isExporting := false }

/-- The final state of one `startExport` run per exit path
(src/unnamed/part_000 lines 68-228), given the container's pre-export style
dimensions and the clock's pre-export play flag:
* `startFail`: thrown at line 95, before the clock is paused (line 101) and
  before the container is resized, so the play flag is still `wasPlaying`;
  the catch block applies.
* `canceledAt` / `captureFailAt` / `uploadFailAt`: thrown inside the loop;
  the clock was paused at line 101 (or was already paused), and the catch
  block does not resume it, so the flag ends `false`.
* `finishFail`: thrown at line 183, after the success-path restore (lines
  161-168) already restored the size and play flag; the catch block then
  overwrites the size with `'100%'` but leaves the play flag restored.
* `success`: size restored to the saved originals (lines 161-164), clock
  sought to 0 and resumed if it was playing (lines 167-168), 100% reported
  (line 197), exporting flag cleared in the `setTimeout` (line 200). -/
def startExportFinal (origW origH : String) (wasPlaying : Bool)
    (o : ModeAOutcome) : ExportFinal :=
  match o with
  | .startFail => catchFinal wasPlaying (outcomeErrMsg .startFail)
  | .canceledAt f => catchFinal false (outcomeErrMsg (.canceledAt f))
  | .captureFailAt f => catchFinal false (outcomeErrMsg (.captureFailAt f))
  | .uploadFailAt f => catchFinal false (outcomeErrMsg (.uploadFailAt f))
  | .finishFail => catchFinal wasPlaying (outcomeErrMsg .finishFail)
  | .success =>
    { width := origW
      height := origH
      isPlaying := wasPlaying
      progressPct := 100
      statusMsg := "エクスポート完了！"
      isExporting := false }

/-! ### Easing endpoint lemmas -/

/-- At target `t = 0`, Newton-Raphson starts at `t2 = 0`, where the
x-residual is exactly `0`, so the loop breaks immediately. -/
theorem newtonIter_zero (ax bx cx : ℚ) (n : ℕ) : newtonIter ax bx cx 0 n 0 = 0 := by
  cases n with
  | zero => rfl
  | succ n =>
    have hx : ((ax * 0 + bx) * 0 + cx) * 0 - 0 = (0 : ℚ) := by ring
    simp only [newtonIter, hx]
    norm_num

/-- At target `t = 1` with `ax = 1 - cx - bx` (the Bézier x-polynomial),
the x-residual at `t2 = 1` is `ax + bx + cx - 1 = 0`, so the loop breaks
immediately. -/
theorem newtonIter_one (bx cx : ℚ) (n : ℕ) :
    newtonIter (1 - cx - bx) bx cx 1 n 1 = 1 := by
  cases n with
  | zero => rfl
  | succ n =>
    have hx : (((1 - cx - bx) * 1 + bx) * 1 + cx) * 1 - 1 = (0 : ℚ) := by ring
    simp only [newtonIter, hx]
    norm_num

/-- `bezier(0, ...) = 0` for any control points. -/
theorem bezier_zero (p1 p2 p3 p4 : ℚ) : bezier 0 p1 p2 p3 p4 = 0 := by
  simp only [bezier]
  rw [newtonIter_zero]
  ring

/-- `bezier(1, ...) = 1` for any control points. -/
theorem bezier_one (p1 p2 p3 p4 : ℚ) : bezier 1 p1 p2 p3 p4 = 1 := by
  simp only [bezier]
  rw [newtonIter_one]
  ring

/-- Every easing kind maps `0` to `0`. -/
theorem applyEasing_zero (ty : EasingType) : applyEasing ty 0 = 0 := by
  cases ty <;>
    simp [applyEasing, linearEase, easeIn, easeOut, easeInOut, bezier_zero] <;>
    norm_num

/-- Every easing kind maps `1` to `1`. -/
theorem applyEasing_one (ty : EasingType) : applyEasing ty 1 = 1 := by
  cases ty <;>
    simp [applyEasing, linearEase, easeIn, easeOut, easeInOut, bezier_one] <;>
    norm_num

/-- C8: for all scalars `a`, `b` and every easing kind,
`lerp(a,b,0) = a` and `lerp(a,b,1) = b`; and for any four control-point
scalars, `bezier(0,...) = 0` and `bezier(1,...) = 1`. -/
theorem c8_endpoint_identities (a b p1 p2 p3 p4 : ℚ) (ty : EasingType) :
    interpolate a b 0 ty = a ∧ interpolate a b 1 ty = b ∧
    bezier 0 p1 p2 p3 p4 = 0 ∧ bezier 1 p1 p2 p3 p4 = 1 := by
  refine ⟨?_, ?_, bezier_zero p1 p2 p3 p4, bezier_one p1 p2 p3 p4⟩
  · simp [interpolate, applyEasing_zero]
  · simp [interpolate, applyEasing_one]

/-! ### Angle normalization lemmas -/

/-- The first `while` loop leaves any angle at or below `180`. -/
theorem normLoop1_le (a : ℚ) : normLoop1 a ≤ 180 := by
  induction a using normLoop1.induct with
  | case1 a h ih => rw [normLoop1]; simpa [h] using ih
  | case2 a h => rw [normLoop1]; simp [h]; linarith [not_lt.mp h]

/-- The second `while` loop leaves any angle at or above `-180`. -/
theorem normLoop2_ge (a : ℚ) : -180 ≤ normLoop2 a := by
  induction a using normLoop2.induct with
  | case1 a h ih => rw [normLoop2]; simpa [h] using ih
  | case2 a h => rw [normLoop2]; simp [h]; linarith [not_lt.mp h]

/-- The second `while` loop preserves the upper bound `180`. -/
theorem normLoop2_le (a : ℚ) (ha : a ≤ 180) : normLoop2 a ≤ 180 := by
  induction a using normLoop2.induct with
  | case1 a h ih => rw [normLoop2]; simp [h]; exact ih (by linarith)
  | case2 a h => rw [normLoop2]; simpa [h] using ha

/-- Unfolding rule: the first loop does not fire at or below `180`. -/
theorem normLoop1_of_le {a : ℚ} (h : a ≤ 180) : normLoop1 a = a := by
  rw [normLoop1, if_neg (not_lt.mpr h)]

/-- Unfolding rule: one subtraction step of the first loop. -/
theorem normLoop1_step {a : ℚ} (h : 180 < a) :
    normLoop1 a = normLoop1 (a - 360) := by
  conv_lhs => rw [normLoop1]
  rw [if_pos h]

/-- Unfolding rule: the second loop does not fire at or above `-180`. -/
theorem normLoop2_of_ge {a : ℚ} (h : -180 ≤ a) : normLoop2 a = a := by
  rw [normLoop2, if_neg (not_lt.mpr h)]

/-- Unfolding rule: one addition step of the second loop. -/
theorem normLoop2_step {a : ℚ} (h : a < -180) :
    normLoop2 a = normLoop2 (a + 360) := by
  conv_lhs => rw [normLoop2]
  rw [if_pos h]

/-- `normalizeAngle` lands in the closed interval `[-180, 180]` (the value
`-180` is a fixed point: neither loop fires on it). -/
theorem normalizeAngle_mem (a : ℚ) :
    -180 ≤ normalizeAngle a ∧ normalizeAngle a ≤ 180 :=
  ⟨normLoop2_ge _, normLoop2_le _ (normLoop1_le a)⟩

/-- C7 counterexample: `interpolateAngle` maps the pair `(-180, -180)` to
`-180`, which is outside the claimed interval `(-180, 180]` — the
normalization loops leave `-180` untouched, so the result range is the
closed interval `[-180, 180]`. -/
theorem c7_counterexample :
    interpolateAngle (-180) (-180) (1 / 2) EasingType.linear = -180 ∧
    ¬ (-180 < interpolateAngle (-180) (-180) (1 / 2) EasingType.linear) := by
  constructor <;>
    norm_num [interpolateAngle, applyEasing, linearEase, normalizeAngle,
      normLoop1_of_le, normLoop2_of_ge]

/-- C7 (amended): for all angles, `t` and easing kinds, `interpolateAngle`
normalizes through the wrapped shortest delta and returns a value in the
closed interval `[-180, 180]` (not the half-open `(-180, 180]`); in
particular `interpolateAngle 350 10 0.5 = 0`. -/
theorem c7_angle_interpolation (a b t : ℚ) (ty : EasingType) :
    -180 ≤ interpolateAngle a b t ty ∧ interpolateAngle a b t ty ≤ 180 ∧
    interpolateAngle 350 10 (1 / 2) EasingType.linear = 0 := by
  refine ⟨?_, ?_, ?_⟩
  · simp only [interpolateAngle]; exact (normalizeAngle_mem _).1
  · simp only [interpolateAngle]; exact (normalizeAngle_mem _).2
  · norm_num [interpolateAngle, applyEasing, linearEase, normalizeAngle,
      normLoop1_step, normLoop1_of_le, normLoop2_of_ge]

/-! ### Keyframe fov coercion (C10) -/

/-- C10 (amended): the `Keyframe` constructor — and hence
`Keyframe.fromJSON` — sets `fov` to `60` both when `cameraData.fov` is
absent and when it equals `0`, and a document keyframe with `fov = 0` is
imported with `fov = 60`.  (The further claim that no stored keyframe can
carry `fov = 0` fails: `updateKeyframe` bypasses the constructor, see the
counterexample.) -/
theorem c10_fov_coercion (time : ℚ) (cd : CameraData) (ty : EasingType)
    (d : KeyframeJSON) :
    (cd.fov = none → (keyframeMk time cd ty).fov = 60) ∧
    (cd.fov = some 0 → (keyframeMk time cd ty).fov = 60) ∧
    (d.fov = 0 → (Keyframe.fromJSON d).fov = 60) := by
  refine ⟨fun h => ?_, fun h => ?_, fun h => ?_⟩ <;>
    simp [keyframeMk, Keyframe.fromJSON, h]

/-- C10 counterexample: `updateKeyframe` applies `Object.assign` directly,
so a stored keyframe can end up carrying `fov = 0` — refuting
"no Keyframe can carry fov = 0". -/
theorem c10_counterexample :
    ((updateKeyframe [keyframeMk 0 ⟨0, 0, 0, 0, 0, 0, some 60⟩ .linear] 0
        { fov := some 0 }).getD 0 default).fov = 0 := by
  simp [updateKeyframe, sortKeyframes, applyUpdate, keyframeMk]

/-- C10 witness: the amended theorem applied at a concrete camera record
with `fov = 0` and a concrete document with `fov = 0`. -/
theorem c10_witness :
    (keyframeMk 0 ⟨1, 2, 3, 4, 5, 6, some 0⟩ .linear).fov = 60 ∧
    (Keyframe.fromJSON ⟨7, 1, 2, 3, 4, 5, 6, 0, .linear⟩).fov = 60 :=
  ⟨(c10_fov_coercion 0 ⟨1, 2, 3, 4, 5, 6, some 0⟩ .linear
      ⟨7, 1, 2, 3, 4, 5, 6, 0, .linear⟩).2.1 rfl,
   (c10_fov_coercion 0 ⟨1, 2, 3, 4, 5, 6, some 0⟩ .linear
      ⟨7, 1, 2, 3, 4, 5, 6, 0, .linear⟩).2.2 rfl⟩

/-! ### Timeline sortedness (C9) and round-trip (C6) -/

/-- The sort comparator is transitive. -/
theorem timeLE_trans : ∀ a b c : Keyframe, timeLE a b → timeLE b c → timeLE a c := by
  intro a b c hab hbc
  simp only [timeLE, decide_eq_true_eq] at *
  exact le_trans hab hbc

/-- The sort comparator is total. -/
theorem timeLE_total : ∀ a b : Keyframe, timeLE a b || timeLE b a := by
  intro a b
  simp only [timeLE, Bool.or_eq_true, decide_eq_true_eq]
  exact le_total a.time b.time

/-- `sortKeyframes` always produces a time-sorted list. -/
theorem sortKeyframes_sorted (ks : List Keyframe) : KfSorted (sortKeyframes ks) :=
  (List.sorted_mergeSort timeLE_trans timeLE_total ks).imp
    (fun h => by simpa [timeLE] using h)

/-- `sortKeyframes` is the identity on an already-sorted list (JS
`Array.prototype.sort` is stable, as is `mergeSort`). -/
theorem sortKeyframes_of_sorted {ks : List Keyframe} (h : KfSorted ks) :
    sortKeyframes ks = ks :=
  List.mergeSort_of_sorted (h.imp (fun hab => by simpa [timeLE] using hab))

/-- C9: after every mutation of the keyframe collection — add, update
(including time changes), and remove — the stored sequence is sorted
ascending by time. -/
theorem c9_sorted_after_mutation (ks : List Keyframe) (kf : Keyframe) (i : ℕ)
    (u : KeyframeUpdate) (hs : KfSorted ks) :
    KfSorted (addKeyframe ks kf) ∧ KfSorted (removeKeyframe ks i) ∧
    KfSorted (updateKeyframe ks i u) :=
  ⟨sortKeyframes_sorted _,
   List.Pairwise.sublist (List.eraseIdx_sublist ks i) hs,
   sortKeyframes_sorted _⟩

/-- C9 witness: the invariant at a concrete two-keyframe timeline, for an
insertion between the two, removal of the head, and a time-changing
update. -/
theorem c9_witness :
    KfSorted (addKeyframe [⟨1, 0, 0, 0, 0, 0, 0, 60, .linear⟩,
        ⟨3, 0, 0, 0, 0, 0, 0, 60, .linear⟩] ⟨2, 0, 0, 0, 0, 0, 0, 50, .easeIn⟩) ∧
    KfSorted (removeKeyframe [⟨1, 0, 0, 0, 0, 0, 0, 60, .linear⟩,
        ⟨3, 0, 0, 0, 0, 0, 0, 60, .linear⟩] 0) ∧
    KfSorted (updateKeyframe [⟨1, 0, 0, 0, 0, 0, 0, 60, .linear⟩,
        ⟨3, 0, 0, 0, 0, 0, 0, 60, .linear⟩] 0 { time := some 5 }) :=
  c9_sorted_after_mutation _ _ _ _ (by decide)

/-- Re-importing an exported keyframe is the identity as long as its `fov`
is not the falsy value `0`. -/
theorem fromJSON_toJSON {kf : Keyframe} (h : kf.fov ≠ 0) :
    Keyframe.fromJSON kf.toJSON = kf := by
  cases kf with
  | mk time lat lon ht hd pit ro fov ty =>
    simp only [Keyframe.fov] at h
    simp [Keyframe.fromJSON, Keyframe.toJSON, keyframeMk, h]

/-- Folding `addKeyframe` over a tail of an overall-sorted list appends it
unchanged (each step's sort is the identity on the sorted prefix). -/
theorem foldl_addKeyframe (todo done : List Keyframe)
    (h : KfSorted (done ++ todo)) :
    todo.foldl addKeyframe done = done ++ todo := by
  induction todo generalizing done with
  | nil => simp
  | cons a rest ih =>
    have hsub : List.Sublist (done ++ [a]) (done ++ a :: rest) :=
      ((List.cons_sublist_cons.mpr (List.nil_sublist rest)).append_left done)
    have h1 : KfSorted (done ++ [a]) := List.Pairwise.sublist hsub h
    have step : addKeyframe done a = done ++ [a] := sortKeyframes_of_sorted h1
    rw [List.foldl_cons, step]
    have h2 : KfSorted ((done ++ [a]) ++ rest) := by simpa using h
    simpa using ih (done ++ [a]) h2

/-- C6 (amended): export-then-import reproduces the identical ordered
keyframe sequence field-for-field, for every Timeline whose stored
sequence is sorted (the maintained invariant) and whose keyframes all have
`fov ≠ 0`; a keyframe with `fov = 0` (reachable via `updateKeyframe`)
is re-imported with `fov = 60` instead. -/
theorem c6_roundtrip (ks : List Keyframe) (hs : KfSorted ks)
    (hf : ∀ kf ∈ ks, kf.fov ≠ 0) :
    importFromJSON (exportToJSON ks) = ks := by
  unfold importFromJSON exportToJSON
  simp only []
  rw [← List.foldl_map, List.map_map]
  have h1 : ∀ a ∈ ks, (Keyframe.fromJSON ∘ Keyframe.toJSON) a = id a :=
    fun a ha => fromJSON_toJSON (hf a ha)
  rw [List.map_congr_left h1, List.map_id]
  simpa using foldl_addKeyframe ks [] (by simpa using hs)

/-- C6 counterexample: a Timeline holding a keyframe with `fov = 0` does
not round-trip — `Keyframe.fromJSON` coerces the imported `fov` to `60`. -/
theorem c6_counterexample :
    importFromJSON (exportToJSON [⟨0, 1, 2, 3, 4, 5, 6, 0, .linear⟩]) ≠
      [(⟨0, 1, 2, 3, 4, 5, 6, 0, .linear⟩ : Keyframe)] := by
  simp [importFromJSON, exportToJSON, addKeyframe, sortKeyframes,
    Keyframe.fromJSON, Keyframe.toJSON, keyframeMk]

/-- C6 witness: the round-trip identity at a concrete sorted two-keyframe
timeline with non-zero `fov`s. -/
theorem c6_witness :
    importFromJSON (exportToJSON [⟨0, 1, 2, 3, 4, 5, 6, 60, .linear⟩,
        ⟨2, 7, 8, 9, 10, 11, 12, 45, .easeIn⟩]) =
      [⟨0, 1, 2, 3, 4, 5, 6, 60, .linear⟩, ⟨2, 7, 8, 9, 10, 11, 12, 45, .easeIn⟩] :=
  c6_roundtrip _ (by decide) (by decide)

/-! ### Timeline sampling edge cases (C5) -/

/-- In a sorted list every element's time is at most the last element's. -/
theorem time_le_getLast :
    ∀ {ks : List Keyframe}, KfSorted ks → ∀ {kf : Keyframe}, kf ∈ ks →
      ∀ {kl : Keyframe}, ks.getLast? = some kl → kf.time ≤ kl.time
  | [], _, _, hm, _, _ => absurd hm (List.not_mem_nil _)
  | [a], _, kf, hm, kl, hl => by
    simp at hm hl
    simp [hm, ← hl]
  | a :: c :: cs, hs, kf, hm, kl, hl => by
    rw [List.getLast?_cons_cons] at hl
    have hp := List.pairwise_cons.mp hs
    rcases List.mem_cons.mp hm with rfl | hmr
    · have hklm : kl ∈ c :: cs := List.mem_of_getLast?_eq_some hl
      exact hp.1 kl hklm
    · exact time_le_getLast hp.2 hmr hl

/-- Loop step: when the current keyframe does not trigger the `break`
(`kf.time < t`), the loop continues on the tail with the updated `before`
accumulator. -/
theorem gskAux_cons_lt {t : ℚ} {kf : Keyframe} (h2 : ¬ t ≤ kf.time)
    {rest : List Keyframe} {i : ℕ} {b : Option ℕ} :
    gskAux t (kf :: rest) i b =
      gskAux t rest (i + 1) (if kf.time ≤ t then some i else b) := by
  simp [gskAux, h2]

/-- When every keyframe's time is strictly below `t`, the loop of
`getSurroundingKeyframes` runs to the end: `before` is the last index and
`after` is never assigned. -/
theorem gskAux_all_lt (t : ℚ) :
    ∀ (ks : List Keyframe) (i : ℕ) (b : Option ℕ), ks ≠ [] →
      (∀ kf ∈ ks, kf.time < t) →
      gskAux t ks i b = (some (i + ks.length - 1), none)
  | [], _, _, hne, _ => absurd rfl hne
  | kf :: rest, i, b, _, hall => by
    have h1 : kf.time ≤ t := le_of_lt (hall kf (List.mem_cons_self kf rest))
    have h2 : ¬ t ≤ kf.time := not_le.mpr (hall kf (List.mem_cons_self kf rest))
    cases rest with
    | nil => simp [gskAux, h1, h2]
    | cons c cs =>
      have hr := gskAux_all_lt t (c :: cs) (i + 1) (some i) (by simp)
        (fun x hx => hall x (List.mem_cons_of_mem kf hx))
      rw [gskAux_cons_lt h2, if_pos h1, hr]
      simp only [List.length_cons, Prod.mk.injEq, Option.some.injEq,
        and_true]
      omega

/-- With a sorted list containing a keyframe at exactly `t`, the loop
breaks at the first such index, assigning both `before` and `after` to
it. -/
theorem gskAux_exact (t : ℚ) :
    ∀ (ks : List Keyframe), KfSorted ks → (∃ kf ∈ ks, kf.time = t) →
      ∀ (i : ℕ) (b : Option ℕ),
      ∃ j, j < ks.length ∧ gskAux t ks i b = (some (i + j), some (i + j)) ∧
        (ks.getD j default).time = t
  | [], _, hex, _, _ => by simp at hex
  | kf :: rest, hs, hex, i, b => by
    rcases le_or_lt t kf.time with hle | hlt
    · rcases eq_or_lt_of_le hle with heq | hlt2
      · refine ⟨0, by simp, ?_, by simp [← heq]⟩
        have h1 : kf.time ≤ t := le_of_eq heq.symm
        simp [gskAux, h1, hle]
      · exfalso
        obtain ⟨x, hx, hxt⟩ := hex
        rcases List.mem_cons.mp hx with rfl | hxr
        · exact absurd hxt (by linarith)
        · have hle2 : kf.time ≤ x.time := (List.pairwise_cons.mp hs).1 x hxr
          rw [hxt] at hle2
          linarith
    · have hex2 : ∃ x ∈ rest, x.time = t := by
        obtain ⟨x, hx, hxt⟩ := hex
        rcases List.mem_cons.mp hx with rfl | hxr
        · exact absurd hxt (by linarith)
        · exact ⟨x, hxr, hxt⟩
      obtain ⟨j, hj, heq, htj⟩ :=
        gskAux_exact t rest (List.pairwise_cons.mp hs).2 hex2 (i + 1) (some i)
      refine ⟨j + 1, by simpa using Nat.succ_lt_succ hj, ?_, by simpa using htj⟩
      have h1 : kf.time ≤ t := le_of_lt hlt
      have h2 : ¬ t ≤ kf.time := not_le.mpr hlt
      rw [gskAux_cons_lt h2, if_pos h1, heq]
      simp only [Prod.mk.injEq, Option.some.injEq]
      omega

/-- Sampling the empty timeline returns the documented default pose. -/
theorem interpolateAt_nil (t : ℚ) : interpolateAt [] t = defaultPose := rfl

/-- Sampling before the first keyframe clamps to its pose. -/
theorem interpolateAt_before_first (kf0 : Keyframe) (rest : List Keyframe)
    (t : ℚ) (ht : t < kf0.time) :
    interpolateAt (kf0 :: rest) t = kf0.pose := by
  have h1 : ¬ kf0.time ≤ t := not_le.mpr ht
  have h2 : t ≤ kf0.time := le_of_lt ht
  simp [interpolateAt, getSurroundingKeyframes, gskAux, h1, h2]

/-- Sampling after the last keyframe clamps to its pose. -/
theorem interpolateAt_after_last (ks : List Keyframe) (kfl : Keyframe)
    (t : ℚ) (hs : KfSorted ks) (hl : ks.getLast? = some kfl)
    (ht : kfl.time < t) : interpolateAt ks t = kfl.pose := by
  have hne : ks ≠ [] := by
    intro h
    rw [h] at hl
    simp at hl
  have hall : ∀ kf ∈ ks, kf.time < t :=
    fun kf hkf => lt_of_le_of_lt (time_le_getLast hs hkf hl) ht
  have hlen : ¬ ks.length = 0 := by simpa [List.length_eq_zero] using hne
  have hd : ks.getD (ks.length - 1) default = kfl := by
    rw [List.getD_eq_getElem?_getD, ← List.getLast?_eq_getElem?, hl]
    rfl
  unfold interpolateAt getSurroundingKeyframes
  rw [if_neg hlen, gskAux_all_lt t ks 0 none hne hall]
  simpa using congrArg Keyframe.pose hd

/-- Sampling at an exactly matching time returns that keyframe's pose
unchanged. -/
theorem interpolateAt_exact (ks : List Keyframe) (t : ℚ) (hs : KfSorted ks)
    (hex : ∃ kf ∈ ks, kf.time = t) :
    ∃ kf ∈ ks, kf.time = t ∧ interpolateAt ks t = kf.pose := by
  obtain ⟨j, hj, heq, htj⟩ := gskAux_exact t ks hs hex 0 none
  have hlen : ¬ ks.length = 0 := by omega
  have hdm : ks.getD j default ∈ ks := by
    rw [List.getD_eq_getElem?_getD, List.getElem?_eq_getElem hj]
    exact List.getElem_mem hj
  refine ⟨ks.getD j default, hdm, htj, ?_⟩
  unfold interpolateAt getSurroundingKeyframes
  rw [if_neg hlen, heq]
  simp

/-- Sampling a one-keyframe timeline returns its pose at every time. -/
theorem interpolateAt_singleton (kf : Keyframe) (t : ℚ) :
    interpolateAt [kf] t = kf.pose := by
  by_cases h1 : kf.time ≤ t <;> by_cases h2 : t ≤ kf.time <;>
    simp [interpolateAt, getSurroundingKeyframes, gskAux, h1, h2]
  exact absurd (le_of_not_le h1) h2

/-- C5: for every sorted timeline and sample time `t` — zero keyframes
yield the documented default pose; `t` before the first keyframe yields
the first keyframe's pose verbatim; `t` after the last yields the last
keyframe's pose verbatim; an exact time match (including the
one-keyframe timeline sampled anywhere) yields that keyframe's pose
unchanged. -/
theorem c5_sampling_edge_cases (ks : List Keyframe) (t : ℚ)
    (hs : KfSorted ks) :
    (ks = [] → interpolateAt ks t = defaultPose) ∧
    (∀ kf0 rest, ks = kf0 :: rest → t < kf0.time →
      interpolateAt ks t = kf0.pose) ∧
    (∀ kfl, ks.getLast? = some kfl → kfl.time < t →
      interpolateAt ks t = kfl.pose) ∧
    ((∃ kf ∈ ks, kf.time = t) →
      ∃ kf ∈ ks, kf.time = t ∧ interpolateAt ks t = kf.pose) ∧
    (∀ kf, ks = [kf] → interpolateAt ks t = kf.pose) := by
  refine ⟨?_, ?_, ?_, ?_, ?_⟩
  · rintro rfl
    exact interpolateAt_nil t
  · rintro kf0 rest rfl ht
    exact interpolateAt_before_first kf0 rest t ht
  · intro kfl hl ht
    exact interpolateAt_after_last ks kfl t hs hl ht
  · exact interpolateAt_exact ks t hs
  · rintro kf rfl
    exact interpolateAt_singleton kf t

/-- C5 witness: a one-keyframe timeline at `time = 5` sampled at `0`, `5`
and `100` returns the keyframe's pose unchanged, and the empty timeline
returns the default pose. -/
theorem c5_witness :
    interpolateAt [] 0 = defaultPose ∧
    interpolateAt [⟨5, 1, 2, 3, 4, 5, 6, 60, .linear⟩] 0 =
      (⟨5, 1, 2, 3, 4, 5, 6, 60, .linear⟩ : Keyframe).pose ∧
    interpolateAt [⟨5, 1, 2, 3, 4, 5, 6, 60, .linear⟩] 5 =
      (⟨5, 1, 2, 3, 4, 5, 6, 60, .linear⟩ : Keyframe).pose ∧
    interpolateAt [⟨5, 1, 2, 3, 4, 5, 6, 60, .linear⟩] 100 =
      (⟨5, 1, 2, 3, 4, 5, 6, 60, .linear⟩ : Keyframe).pose :=
  ⟨(c5_sampling_edge_cases [] 0 (by decide)).1 rfl,
   (c5_sampling_edge_cases _ 0 (by decide)).2.2.2.2 _ rfl,
   (c5_sampling_edge_cases _ 5 (by decide)).2.2.2.2 _ rfl,
   (c5_sampling_edge_cases _ 100 (by decide)).2.2.2.2 _ rfl⟩

/-! ### Playback Clock theorems (C3, C4) -/

/-- `animate` is a no-op returning no events and not rescheduling when the
clock is not playing (the `if (!this.isPlaying) return` guard). -/
theorem animate_eq_of_not_playing {s : ClockState} (h : s.isPlaying = false)
    (now : ℚ) : animate s now = (s, [], false) := by
  simp [animate, h]

/-- `animate` leaves the state untouched (but reschedules) when less than
one frame interval has elapsed. -/
theorem animate_eq_small {s : ClockState} {now : ℚ} (h : s.isPlaying = true)
    (hge : ¬ s.frameInterval ≤ now - s.lastFrameTime) :
    animate s now = (s, [], true) := by
  simp [animate, h, hge]

/-- The loop-wrap branch: a processed tick that reaches the end with
`loop` set wraps `currentTime` to `0` and continues. -/
theorem animate_eq_loop_wrap {s : ClockState} {now : ℚ}
    (h : s.isPlaying = true) (hl : s.loop = true)
    (hge : s.frameInterval ≤ now - s.lastFrameTime)
    (hdur : s.duration ≤ s.currentTime + s.frameInterval / 1000) :
    animate s now =
      ({ s with
          lastFrameTime := now - jsFmod (now - s.lastFrameTime) s.frameInterval
          currentTime := 0 },
        [.timeUpdate 0, .frameUpdate 0 0], true) := by
  simp [animate, h, hl, hge, hdur, getCurrentFrame]

/-- The clamp-and-finish branch: a processed tick that reaches the end
without `loop` clamps to `duration`, pauses, emits `pause`, `timeUpdate`,
`finished`, and does not reschedule. -/
theorem animate_eq_finish {s : ClockState} {now : ℚ}
    (h : s.isPlaying = true) (hl : s.loop = false)
    (hge : s.frameInterval ≤ now - s.lastFrameTime)
    (hdur : s.duration ≤ s.currentTime + s.frameInterval / 1000) :
    animate s now =
      ({ s with
          lastFrameTime := now - jsFmod (now - s.lastFrameTime) s.frameInterval
          currentTime := s.duration
          isPlaying := false },
        [.pauseEv s.duration, .timeUpdate s.duration, .finished], false) := by
  simp [animate, h, hl, hge, hdur]

/-- The ordinary advance branch: a processed tick strictly before the end
advances `currentTime` by exactly one frame interval. -/
theorem animate_eq_advance {s : ClockState} {now : ℚ}
    (h : s.isPlaying = true)
    (hge : s.frameInterval ≤ now - s.lastFrameTime)
    (hdur : ¬ s.duration ≤ s.currentTime + s.frameInterval / 1000) :
    animate s now =
      ({ s with
          lastFrameTime := now - jsFmod (now - s.lastFrameTime) s.frameInterval
          currentTime := s.currentTime + s.frameInterval / 1000 },
        [.timeUpdate (s.currentTime + s.frameInterval / 1000),
         .frameUpdate (s.currentTime + s.frameInterval / 1000)
           ⌊(s.currentTime + s.frameInterval / 1000) * s.fps⌋], true) := by
  simp [animate, h, hge, hdur, getCurrentFrame]

/-- A paused clock stays fixed under any sequence of ticks. -/
theorem runTicks_of_not_playing :
    ∀ (nows : List ℚ) (s : ClockState), s.isPlaying = false →
      runTicks s nows = (s, [])
  | [], s, _ => rfl
  | now :: rest, s, h => by
    simp only [runTicks, animate_eq_of_not_playing h now]
    simp [runTicks_of_not_playing rest s h]

/-- Single-tick preservation of the looping invariant: with `loop` set, a
positive frame interval and `currentTime ∈ [0, duration)`, one `animate`
call keeps `currentTime ∈ [0, duration)`, keeps the configuration fields,
and emits no `finished` event. -/
theorem animate_loop_step (s : ClockState) (now : ℚ) (hl : s.loop = true)
    (hfi : 0 < s.frameInterval) (h0 : 0 ≤ s.currentTime)
    (h1 : s.currentTime < s.duration) :
    (animate s now).1.loop = true ∧
    (animate s now).1.frameInterval = s.frameInterval ∧
    (animate s now).1.duration = s.duration ∧
    0 ≤ (animate s now).1.currentTime ∧
    (animate s now).1.currentTime < s.duration ∧
    ClockEvent.finished ∉ (animate s now).2.1 := by
  by_cases hp : s.isPlaying = true
  · by_cases hge : s.frameInterval ≤ now - s.lastFrameTime
    · by_cases hdur : s.duration ≤ s.currentTime + s.frameInterval / 1000
      · rw [animate_eq_loop_wrap hp hl hge hdur]
        exact ⟨hl, rfl, rfl, le_refl 0, lt_of_le_of_lt h0 h1, by simp⟩
      · rw [animate_eq_advance hp hge hdur]
        refine ⟨hl, rfl, rfl, ?_, not_le.mp hdur, by simp⟩
        have : (0 : ℚ) ≤ s.frameInterval / 1000 := by positivity
        linarith
    · rw [animate_eq_small hp hge]
      exact ⟨hl, rfl, rfl, h0, h1, by simp⟩
  · have hp2 : s.isPlaying = false := by simpa using hp
    rw [animate_eq_of_not_playing hp2 now]
    exact ⟨hl, rfl, rfl, h0, h1, by simp⟩

/-- The looping invariant over any sequence of ticks: `currentTime` stays
in `[0, duration)` and no `finished` event is ever emitted. -/
theorem runTicks_loop_inv :
    ∀ (nows : List ℚ) (s : ClockState), s.loop = true →
      0 < s.frameInterval → 0 ≤ s.currentTime → s.currentTime < s.duration →
      (0 ≤ (runTicks s nows).1.currentTime ∧
       (runTicks s nows).1.currentTime < s.duration ∧
       ClockEvent.finished ∉ (runTicks s nows).2)
  | [], s, _, _, h0, h1 => by
    simp only [runTicks]
    exact ⟨h0, h1, by simp⟩
  | now :: rest, s, hl, hfi, h0, h1 => by
    have hstep := animate_loop_step s now hl hfi h0 h1
    have hrec := runTicks_loop_inv rest (animate s now).1 hstep.1
      (hstep.2.1 ▸ hfi) hstep.2.2.2.1
      (hstep.2.2.1 ▸ hstep.2.2.2.2.1)
    simp only [runTicks]
    refine ⟨hrec.1, hstep.2.2.1 ▸ hrec.2.1, ?_⟩
    simp only [List.mem_append, not_or]
    exact ⟨hstep.2.2.2.2.2, hrec.2.2⟩

/-- C3: a processed tick that reaches or exceeds `duration` wraps to `0`
and keeps ticking with no `finished` event when `loop` is set (and
`currentTime` stays in `[0, duration)` over any tick sequence); without
`loop` it clamps `currentTime` to exactly `duration`, transitions to
paused, emits `timeUpdate` followed by exactly one `finished` (after the
`pause` event), and stops ticking — a paused clock ignores further
ticks. -/
theorem c3_end_of_timeline (s : ClockState) (now : ℚ) (nows : List ℚ) :
    (s.isPlaying = true → s.loop = true →
      s.frameInterval ≤ now - s.lastFrameTime →
      s.duration ≤ s.currentTime + s.frameInterval / 1000 →
      ((animate s now).1.currentTime = 0 ∧
       ClockEvent.finished ∉ (animate s now).2.1 ∧
       (animate s now).2.2 = true)) ∧
    (s.loop = true → 0 < s.frameInterval → 0 ≤ s.currentTime →
      s.currentTime < s.duration →
      (0 ≤ (runTicks s nows).1.currentTime ∧
       (runTicks s nows).1.currentTime < s.duration ∧
       ClockEvent.finished ∉ (runTicks s nows).2)) ∧
    (s.isPlaying = true → s.loop = false →
      s.frameInterval ≤ now - s.lastFrameTime →
      s.duration ≤ s.currentTime + s.frameInterval / 1000 →
      ((animate s now).1.currentTime = s.duration ∧
       (animate s now).1.isPlaying = false ∧
       (animate s now).2.1 =
         [ClockEvent.pauseEv s.duration, ClockEvent.timeUpdate s.duration,
          ClockEvent.finished] ∧
       (animate s now).2.2 = false)) ∧
    (s.isPlaying = false → animate s now = (s, [], false)) := by
  refine ⟨?_, ?_, ?_, ?_⟩
  · intro hp hl hge hdur
    rw [animate_eq_loop_wrap hp hl hge hdur]
    exact ⟨rfl, by simp, rfl⟩
  · exact fun hl hfi h0 h1 => runTicks_loop_inv nows s hl hfi h0 h1
  · intro hp hl hge hdur
    rw [animate_eq_finish hp hl hge hdur]
    exact ⟨rfl, rfl, rfl, rfl⟩
  · exact fun hp => animate_eq_of_not_playing hp now

/-- C3 witness: concrete finishing tick (`fps = 30`, `duration = 2`,
`currentTime = 59/30`) and a concrete looping two-tick run. -/
theorem c3_witness :
    ((animate ⟨true, 59 / 30, 2, 30, 100 / 3, 0, false⟩ (100 / 3)).1.currentTime
        = 2 ∧
     (animate ⟨true, 59 / 30, 2, 30, 100 / 3, 0, false⟩ (100 / 3)).1.isPlaying
        = false ∧
     (animate ⟨true, 59 / 30, 2, 30, 100 / 3, 0, false⟩ (100 / 3)).2.1 =
       [ClockEvent.pauseEv 2, ClockEvent.timeUpdate 2, ClockEvent.finished] ∧
     (animate ⟨true, 59 / 30, 2, 30, 100 / 3, 0, false⟩ (100 / 3)).2.2 = false) ∧
    (0 ≤ (runTicks ⟨true, 0, 2, 30, 100 / 3, 0, true⟩
        [100 / 3, 200 / 3]).1.currentTime ∧
     (runTicks ⟨true, 0, 2, 30, 100 / 3, 0, true⟩
        [100 / 3, 200 / 3]).1.currentTime < 2 ∧
     ClockEvent.finished ∉ (runTicks ⟨true, 0, 2, 30, 100 / 3, 0, true⟩
        [100 / 3, 200 / 3]).2) :=
  ⟨(c3_end_of_timeline ⟨true, 59 / 30, 2, 30, 100 / 3, 0, false⟩ (100 / 3)
      []).2.2.1 rfl rfl (by norm_num) (by norm_num),
   (c3_end_of_timeline ⟨true, 0, 2, 30, 100 / 3, 0, true⟩ 0
      [100 / 3, 200 / 3]).2.1 rfl (by norm_num) (by norm_num) (by norm_num)⟩

/-- Over a non-looping run, `currentTime` only ever advances in exact
multiples of the frame interval — until a tick reaches the end, after
which it is pinned at `duration`. -/
theorem runTicks_multiples :
    ∀ (nows : List ℚ) (s : ClockState), s.loop = false →
      ((∃ k : ℕ, (runTicks s nows).1.currentTime =
          s.currentTime + k * (s.frameInterval / 1000)) ∨
       (runTicks s nows).1.currentTime = s.duration)
  | [], s, _ => .inl ⟨0, by simp [runTicks]⟩
  | now :: rest, s, hl => by
    simp only [runTicks]
    by_cases hp : s.isPlaying = true
    · by_cases hge : s.frameInterval ≤ now - s.lastFrameTime
      · by_cases hdur : s.duration ≤ s.currentTime + s.frameInterval / 1000
        · rw [animate_eq_finish hp hl hge hdur,
            runTicks_of_not_playing rest _ rfl]
          exact .inr rfl
        · rw [animate_eq_advance hp hge hdur]
          dsimp only
          rcases runTicks_multiples rest
              { s with
                lastFrameTime :=
                  now - jsFmod (now - s.lastFrameTime) s.frameInterval
                currentTime := s.currentTime + s.frameInterval / 1000 }
              hl with ⟨k, hk⟩ | hdone
          · refine .inl ⟨k + 1, ?_⟩
            dsimp only at hk
            rw [hk]
            push_cast
            ring
          · exact .inr hdone
      · rw [animate_eq_small hp hge]
        exact runTicks_multiples rest s hl
    · have hp2 : s.isPlaying = false := by simpa using hp
      rw [animate_eq_of_not_playing hp2 now]
      exact runTicks_multiples rest s hl

/-- C4 (amended): a processed tick (`elapsed ≥ frameInterval`) that stays
strictly below `duration` advances `currentTime` by exactly one frame
interval — never the raw elapsed amount — and sets
`lastFrameTime = now - (elapsed mod frameInterval)`; one frame interval is
`1/fps` seconds; a tick with `elapsed < frameInterval` changes nothing;
and over any non-looping tick sequence `currentTime` advances only in
exact multiples of the frame interval until it is clamped to `duration`
by the end-of-timeline rule. -/
theorem c4_drift_correction (s : ClockState) (now : ℚ) (nows : List ℚ) :
    (s.isPlaying = true → s.frameInterval ≤ now - s.lastFrameTime →
      s.currentTime + s.frameInterval / 1000 < s.duration →
      ((animate s now).1.currentTime =
        s.currentTime + s.frameInterval / 1000 ∧
       (animate s now).1.lastFrameTime =
        now - jsFmod (now - s.lastFrameTime) s.frameInterval)) ∧
    (s.isPlaying = true → now - s.lastFrameTime < s.frameInterval →
      animate s now = (s, [], true)) ∧
    (s.frameInterval = 1000 / s.fps → 0 < s.fps →
      s.frameInterval / 1000 = 1 / s.fps) ∧
    (s.loop = false →
      ((∃ k : ℕ, (runTicks s nows).1.currentTime =
          s.currentTime + k * (s.frameInterval / 1000)) ∨
       (runTicks s nows).1.currentTime = s.duration)) := by
  refine ⟨?_, ?_, ?_, runTicks_multiples nows s⟩
  · intro hp hge hdur
    rw [animate_eq_advance hp hge (not_le.mpr hdur)]
    exact ⟨rfl, rfl⟩
  · intro hp hsmall
    exact animate_eq_small hp (not_le.mpr hsmall)
  · intro hfi hfps
    rw [hfi]
    field_simp
    ring
/-- C4 counterexample: on a processed tick that reaches `duration`
(`fps = 30`, `duration = 1/20`, `currentTime = 1/30`), `currentTime` is
clamped to `duration` and advances by `1/60` — not by one frame interval
(`1/30` s) — refuting the claim's universal "advances by exactly one
frame interval" for every processed tick. -/
theorem c4_counterexample :
    (⟨true, 1 / 30, 1 / 20, 30, 100 / 3, 0, false⟩ : ClockState).frameInterval
        ≤ (100 / 3 : ℚ) -
          (⟨true, 1 / 30, 1 / 20, 30, 100 / 3, 0, false⟩ : ClockState).lastFrameTime ∧
    (animate ⟨true, 1 / 30, 1 / 20, 30, 100 / 3, 0, false⟩
        (100 / 3)).1.currentTime -
      (⟨true, 1 / 30, 1 / 20, 30, 100 / 3, 0, false⟩ : ClockState).currentTime ≠
      (⟨true, 1 / 30, 1 / 20, 30, 100 / 3, 0, false⟩ : ClockState).frameInterval
        / 1000 := by
  constructor
  · norm_num
  · rw [animate_eq_finish rfl rfl (by norm_num) (by norm_num)]
    norm_num

/-- C4 witness: the amended advance rule at a concrete mid-playback tick
(`fps = 30`, elapsed `50` ms). -/
theorem c4_witness :
    (animate ⟨true, 0, 10, 30, 100 / 3, 0, false⟩ 50).1.currentTime =
      0 + (100 / 3) / 1000 ∧
    (animate ⟨true, 0, 10, 30, 100 / 3, 0, false⟩ 50).1.lastFrameTime =
      50 - jsFmod (50 - 0) (100 / 3) :=
  (c4_drift_correction ⟨true, 0, 10, 30, 100 / 3, 0, false⟩ 50 []).1 rfl
    (by norm_num) (by norm_num)

/-! ### Export Mode A theorems (C1, C2) -/

/-- Every upload event in a trace is preceded by a `setCamera` whose pose
is the timeline sampled at `frameIndex / fps`, with no other `setCamera`
in between (the nearest preceding camera write carries exactly that
pose). -/
def UploadsPoseAligned (ks : List Keyframe) (fps : ℚ)
    (tr : List ExportEvent) : Prop :=
  ∀ (j : ℕ) (h : j < tr.length) (i : ℕ), tr.get ⟨j, h⟩ = ExportEvent.upload i →
    lastCamera (tr.take j) = some (interpolateAt ks ((i : ℚ) / fps))

theorem uploadsPoseAligned_nil (ks : List Keyframe) (fps : ℚ) :
    UploadsPoseAligned ks fps [] := by
  intro j h
  simp at h

/-- `uploadIndices` distributes over concatenation. -/
theorem uploadIndices_append (a b : List ExportEvent) :
    uploadIndices (a ++ b) = uploadIndices a ++ uploadIndices b :=
  List.filterMap_append a b _

/-- A frame block contains exactly one upload, of its own frame index. -/
theorem uploadIndices_block (ks : List Keyframe) (fps : ℚ) (n f : ℕ) :
    uploadIndices (frameBlock ks fps n f) = [f] := rfl

theorem frameBlock_length (ks : List Keyframe) (fps : ℚ) (n f : ℕ) :
    (frameBlock ks fps n f).length = 6 := rfl

/-- Appending one frame block preserves pose-alignment of uploads: the
block's single upload (offset 4) is preceded inside the block by the
`setCamera` of the pose sampled at `f / fps` (offset 0), and nothing after
it overwrites the camera before the upload. -/
theorem uploadsPoseAligned_append_block (ks : List Keyframe) (fps : ℚ)
    (n f : ℕ) (tr : List ExportEvent) (hg : UploadsPoseAligned ks fps tr) :
    UploadsPoseAligned ks fps (tr ++ frameBlock ks fps n f) := by
  intro j h i hup
  rw [List.get_eq_getElem] at hup
  by_cases hj : j < tr.length
  · have hrw : (tr ++ frameBlock ks fps n f)[j] = tr[j] :=
      List.getElem_append_left hj
    rw [hrw] at hup
    rw [List.take_append_of_le_length (le_of_lt hj)]
    exact hg j hj i (by rw [List.get_eq_getElem]; exact hup)
  · have hj2 : tr.length ≤ j := le_of_not_lt hj
    have hlen : j < tr.length + 6 := by
      have := h
      rw [List.length_append, frameBlock_length] at this
      exact this
    have hb : j - tr.length < (frameBlock ks fps n f).length := by
      rw [frameBlock_length]
      omega
    have hget : (tr ++ frameBlock ks fps n f)[j] =
        (frameBlock ks fps n f)[j - tr.length] :=
      List.getElem_append_right hj2
    rw [hget] at hup
    have hcases : j - tr.length = 0 ∨ j - tr.length = 1 ∨ j - tr.length = 2 ∨
        j - tr.length = 3 ∨ j - tr.length = 4 ∨ j - tr.length = 5 := by omega
    have htake : (tr ++ frameBlock ks fps n f).take j =
        tr ++ (frameBlock ks fps n f).take (j - tr.length) := by
      rw [List.take_append_eq_append_take, List.take_of_length_le hj2]
    have hup2 : (frameBlock ks fps n f)[j - tr.length]? =
        some (ExportEvent.upload i) := by
      rw [List.getElem?_eq_getElem hb, hup]
    rcases hcases with hk | hk | hk | hk | hk | hk <;>
        rw [hk] at hup2 <;> simp [frameBlock] at hup2
    -- only the `upload` offset (4) survives; there `hup2 : f = i`
    subst hup2
    rw [htake, hk]
    simp [frameBlock, lastCamera, List.foldl_append]

/-- Pose-alignment of the full frame loop, by induction over the list of
frame indices from the right. -/
theorem uploadsPoseAligned_flatMap (ks : List Keyframe) (fps : ℚ) (n : ℕ)
    (fs : List ℕ) :
    UploadsPoseAligned ks fps (fs.flatMap (frameBlock ks fps n)) := by
  induction fs using List.reverseRecOn with
  | nil => exact uploadsPoseAligned_nil ks fps
  | append_singleton fs f ih =>
    rw [List.flatMap_append, List.flatMap_cons, List.flatMap_nil,
      List.append_nil]
    exact uploadsPoseAligned_append_block ks fps n f _ ih

/-- The frame loop uploads each frame index exactly once, in order. -/
theorem uploadIndices_flatMap (ks : List Keyframe) (fps : ℚ) (n : ℕ) :
    ∀ (fs : List ℕ),
      uploadIndices (fs.flatMap (frameBlock ks fps n)) = fs
  | [] => rfl
  | f :: rest => by
    rw [List.flatMap_cons, uploadIndices_append, uploadIndices_block,
      uploadIndices_flatMap ks fps n rest]
    rfl

/-- C1: for every `duration > 0` and `fps > 0`, a Mode A export that runs
to completion performs exactly `totalFrames = ceil(duration * fps) ≥ 1`
frame uploads with `frameIndex` taking the values `0, ..., totalFrames-1`
in order, each upload of frame `i` preceded by setting the camera to
exactly the pose `Timeline.sample(i / fps)`. -/
theorem c1_mode_a_frame_loop (ks : List Keyframe) (duration fps : ℚ)
    (hd : 0 < duration) (hf : 0 < fps) :
    1 ≤ totalFramesFor duration fps ∧
    uploadIndices (exportTrace ks duration fps) =
      List.range (totalFramesFor duration fps) ∧
    (uploadIndices (exportTrace ks duration fps)).length =
      totalFramesFor duration fps ∧
    UploadsPoseAligned ks fps (exportTrace ks duration fps) := by
  refine ⟨?_, ?_, ?_, ?_⟩
  · have h1 : 0 < duration * fps := mul_pos hd hf
    have h2 : 0 < ⌈duration * fps⌉ := Int.ceil_pos.mpr h1
    unfold totalFramesFor
    omega
  · exact uploadIndices_flatMap ks fps _ (List.range _)
  · show (uploadIndices ((List.range (totalFramesFor duration fps)).flatMap
        (frameBlock ks fps (totalFramesFor duration fps)))).length = _
    rw [uploadIndices_flatMap]
    exact List.length_range _
  · exact uploadsPoseAligned_flatMap ks fps _ (List.range _)

/-- C1 witness: the `fps = 10`, `duration = 1` scenario — exactly 10
uploads with frame indices `0..9` in order, each pose-aligned. -/
theorem c1_witness :
    1 ≤ totalFramesFor 1 10 ∧
    uploadIndices (exportTrace [] 1 10) = List.range (totalFramesFor 1 10) ∧
    (uploadIndices (exportTrace [] 1 10)).length = totalFramesFor 1 10 ∧
    UploadsPoseAligned [] 10 (exportTrace [] 1 10) :=
  c1_mode_a_frame_loop [] 1 10 (by norm_num) (by norm_num)

/-- C2 counterexample: cancelling mid-export (frame 4) leaves the render
surface at `'100%' × '100%'` — the catch block's hard-coded value — not
the saved pre-export dimensions, and leaves the clock paused even though
it was playing before the export. -/
theorem c2_counterexample :
    (startExportFinal "640px" "480px" true (.canceledAt 4)).width ≠ "640px" ∧
    (startExportFinal "640px" "480px" true (.canceledAt 4)).isPlaying ≠ true := by
  decide

/-- C2 (amended): on the success path the render surface is restored to
its exact pre-export dimensions and the clock's play-state is restored;
on every failure or cancellation path the progress is reported as 0%
together with `'エラー: ' + message`, but the surface is set to
`'100%' × '100%'` (not the saved values) and the play-state is restored
only on the paths where the clock was never paused (`startFail`) or
already restarted (`finishFail`); the exporting flag is always cleared. -/
theorem c2_exit_paths (origW origH : String) (wasPlaying : Bool)
    (o : ModeAOutcome) :
    (o = .success →
      (startExportFinal origW origH wasPlaying o).width = origW ∧
      (startExportFinal origW origH wasPlaying o).height = origH ∧
      (startExportFinal origW origH wasPlaying o).isPlaying = wasPlaying ∧
      (startExportFinal origW origH wasPlaying o).progressPct = 100) ∧
    (o ≠ .success →
      (startExportFinal origW origH wasPlaying o).progressPct = 0 ∧
      (startExportFinal origW origH wasPlaying o).statusMsg =
        "エラー: " ++ outcomeErrMsg o ∧
      (startExportFinal origW origH wasPlaying o).width = "100%" ∧
      (startExportFinal origW origH wasPlaying o).height = "100%") ∧
    ((o = .startFail ∨ o = .finishFail) →
      (startExportFinal origW origH wasPlaying o).isPlaying = wasPlaying) ∧
    ((∃ f, o = .canceledAt f ∨ o = .captureFailAt f ∨ o = .uploadFailAt f) →
      (startExportFinal origW origH wasPlaying o).isPlaying = false) ∧
    (startExportFinal origW origH wasPlaying o).isExporting = false := by
  refine ⟨?_, ?_, ?_, ?_, ?_⟩
  · rintro rfl
    exact ⟨rfl, rfl, rfl, rfl⟩
  · intro hne
    cases o with
    | success => exact absurd rfl hne
    | startFail => exact ⟨rfl, rfl, rfl, rfl⟩
    | canceledAt f => exact ⟨rfl, rfl, rfl, rfl⟩
    | captureFailAt f => exact ⟨rfl, rfl, rfl, rfl⟩
    | uploadFailAt f => exact ⟨rfl, rfl, rfl, rfl⟩
    | finishFail => exact ⟨rfl, rfl, rfl, rfl⟩
  · rintro (rfl | rfl) <;> rfl
  · rintro ⟨f, rfl | rfl | rfl⟩ <;> rfl
  · cases o <;> rfl

/-- C2 witness: the amended exit-path behaviour at concrete inputs — a
successful run restores `'640px'`, a failed session start reports 0% and
leaves the never-paused clock playing, and a cancellation at frame 4
leaves the clock paused. -/
theorem c2_witness :
    (startExportFinal "640px" "480px" true .success).width = "640px" ∧
    (startExportFinal "640px" "480px" true .startFail).progressPct = 0 ∧
    (startExportFinal "640px" "480px" true .startFail).isPlaying = true ∧
    (startExportFinal "640px" "480px" true (.canceledAt 4)).isPlaying = false :=
  ⟨((c2_exit_paths "640px" "480px" true .success).1 rfl).1,
   ((c2_exit_paths "640px" "480px" true .startFail).2.1 (by decide)).1,
   (c2_exit_paths "640px" "480px" true .startFail).2.2.1 (Or.inl rfl),
   (c2_exit_paths "640px" "480px" true (.canceledAt 4)).2.2.2.1
     ⟨4, Or.inl rfl⟩⟩

end EarthStudio
